import Mathlib

set_option autoImplicit false

/-!
# Verification of the anvil2e persistence / sync / query layer

Shallow embedding of the data-layer code of the anvil2e repository:

* `src/lib/db/types.ts`    — document shapes (`GameDataDoc`, `CharacterDoc`, `PreferencesDoc`)
* `src/lib/db/index.ts`    — module state, accessors, destroy/close, sync handler management
* `src/lib/db/queries.ts`  — typed query helpers over the three PouchDB collections
* `src/lib/data/loader.ts` — bulk importer (`loadPack`, `getTypeFromPackName`)

Modelling conventions:

* PouchDB collections are association lists keyed by `_id`; the unordered
  result order of `find` without a `sort` option is modelled as the list
  (index) order of the store.
* `bulkDocs` with `new_edits: false` is a replicated-style write: each document
  is upserted at its `_id` (re-writing an existing identifier overwrites, it
  never duplicates), and every write is reported ok.
* ISO-8601 timestamps are modelled as natural numbers (milliseconds since the
  epoch); `Date.toISOString` is strictly monotone, so ordering is preserved.
* `Math.random()`-derived identifier suffixes and the wall clock are explicit
  oracle parameters: the functions are pure in them.
* Thrown JS exceptions are `Except.error`; PouchDB errors carry their `status`.
-/

namespace Anvil2e

/-! ## Document shapes (types.ts) -/

/-- The closed enumeration of `GameDataDoc["type"]` category tags.
`cls` stands for the source's `"class"` tag (a Lean keyword). -/
inductive GameType where
  | ancestry | background | cls | feat | spell | equipment | action
  | bestiary | condition | deity
deriving DecidableEq

/-- The open-ended `system` payload (`Record<string, unknown>`).  The query
layer only ever inspects `system.level.value` and `system.traits.value`; the
remaining fields are carried opaquely as `rest`. -/
structure SystemData where
  levelValue : Option Int := none
  traitsValue : Option (List String) := none
  rest : List (String × String) := []
deriving DecidableEq

/-- Model of `GameDataDoc` from types.ts (the `_rev` bookkeeping field is storage
metadata handled by the store model, not part of the document value). -/
structure GameDataDoc where
  _id : String
  type : GameType
  name : String
  system : SystemData
  img : Option String := none
  folder : Option String := none
  sort : Option Int := none
  flags : Option (List (String × String)) := none
deriving DecidableEq

/-! ## Source content records and the importer (loader.ts) -/

/-- One parsed source JSON record as consumed by `loadPack`
(`{ _id?, name?, system?, img?, folder?, sort?, flags? }`); every field may be
absent, mirroring the `as`-casts with `||` fallbacks in the loader. -/
structure SourceDoc where
  _id : Option String := none
  name : Option String := none
  system : Option SystemData := none
  img : Option String := none
  folder : Option String := none
  sort : Option Int := none
  flags : Option (List (String × String)) := none
deriving DecidableEq

/-- Global replacement of the regex literal `/\\s+/g` by `"_"`.  Note the
source writes `\\s+` inside a regex literal, so the pattern matches a literal
backslash followed by one or more `s` characters (not whitespace). -/
def repBS : List Char → List Char
  | [] => []
  | c :: rest =>
    if c = '\\' ∧ rest.head? = some 's' then
      '_' :: repBS (rest.dropWhile (fun x => x = 's'))
    else
      c :: repBS rest
termination_by l => l.length
decreasing_by
  · simp_wf
    have h : (rest.dropWhile (fun x => x = 's')).length ≤ rest.length :=
      (List.dropWhile_suffix _).length_le
    omega
  · simp_wf

/-- Model of `name.toLowerCase().replace(/\\s+/g, "_")` from the synthesized-id branch. -/
def normalizeName (n : String) : String :=
  String.mk (repBS n.toLower.toList)

/-- The synthesized identifier `` `${packName}_${(doc.name as string)?.toLowerCase().replace(/\\s+/g,"_")}` ``;
an absent `name` makes the optional chain produce `undefined`, which the JS
template literal renders as the string `"undefined"`. -/
def synthId (packName : String) (d : SourceDoc) : String :=
  packName ++ "_" ++
    (match d.name with
     | some n => normalizeName n
     | none => "undefined")

/-- Model of `doc._id as string || <synthesized>`: an absent or empty (falsy) source
`_id` falls back to the synthesized identifier. -/
def importedId (packName : String) (d : SourceDoc) : String :=
  match d._id with
  | some i => if i = "" then synthId packName d else i
  | none => synthId packName d

/-- The `typeMap` record literal inside `getTypeFromPackName`. -/
def typeMap : List (String × GameType) :=
  [("ancestries", .ancestry), ("backgrounds", .background), ("classes", .cls),
   ("feats", .feat), ("spells", .spell), ("equipment", .equipment),
   ("actions", .action), ("bestiary", .bestiary), ("conditions", .condition),
   ("deities", .deity)]

/-- Model of `getTypeFromPackName` from loader.ts, including the
`|| "feat"` default fallback for pack names absent from `typeMap`. -/
def getTypeFromPackName (packName : String) : GameType :=
  match typeMap.lookup packName with
  | some t => t
  | none => GameType.feat

/-- Model of `CORE_PACKS` from loader.ts. -/
def CORE_PACKS : List String :=
  ["ancestries", "backgrounds", "classes", "classfeatures", "feats",
   "spells", "equipment", "actions"]

/-- Model of `OPTIONAL_PACKS` from loader.ts. -/
def OPTIONAL_PACKS : List String :=
  ["bestiary", "bestiary-ability-glossary-srd", "conditions", "deities",
   "domains"]

/-- The per-document transform inside `loadPack`'s `docs.map`: falsy `_id` and
`name` get deterministic fallbacks, `system` defaults to the empty object, the
remaining fields are passed through. -/
def transformDoc (packName : String) (d : SourceDoc) : GameDataDoc :=
  { _id := importedId packName d
    type := getTypeFromPackName packName
    name :=
      match d.name with
      | some n => if n = "" then "Unnamed" else n
      | none => "Unnamed"
    system := d.system.getD {}
    img := d.img
    folder := d.folder
    sort := d.sort
    flags := d.flags }

/-! ## The gamedata store -/

/-- A gamedata collection: documents in index order, keyed by `_id`. -/
abbrev GameDB := List GameDataDoc

/-- The identifiers present in a store, in index order. -/
def gdIds (db : GameDB) : List String :=
  db.map GameDataDoc._id

/-- Fetch the document stored at an identifier (first match). -/
def gdLookup (db : GameDB) (i : String) : Option GameDataDoc :=
  db.find? (fun e => e._id = i)

/-- Write one document at its `_id`: overwrite the existing entry when the
identifier is present, append otherwise.  This is the effect of a
`new_edits: false` bulk write on one document. -/
def gdUpsert (db : GameDB) (d : GameDataDoc) : GameDB :=
  if db.any (fun e => e._id = d._id) then
    db.map (fun e => if e._id = d._id then d else e)
  else
    db ++ [d]

/-- Model of `db.bulkDocs(gameDataDocs, { new_edits: false })`: the documents are
written in order, each at its own stable `_id`. -/
def bulkDocs (db : GameDB) (docs : List GameDataDoc) : GameDB :=
  docs.foldl gdUpsert db

/-- Result of one `loadPack` call: the returned success count and the store
after the bulk write. -/
structure LoadResult where
  count : Nat
  db : GameDB
deriving DecidableEq

/-- Model of `loadPack(packName)` from loader.ts, with the already-fetched-and-parsed
source records (`Array.isArray(data) ? data : Object.values(data)`) passed in
as `sourceDocs`: an empty pack returns 0 without writing; otherwise every
record is transformed and bulk-written at a deterministic identifier, and the
count of successful writes is returned. -/
def loadPack (packName : String) (sourceDocs : List SourceDoc) (db : GameDB) :
    LoadResult :=
  if sourceDocs.isEmpty then
    { count := 0, db := db }
  else
    let gameDataDocs := sourceDocs.map (transformDoc packName)
    { count := gameDataDocs.length, db := bulkDocs db gameDataDocs }

/-! ## PouchDB errors and single-document reads -/

/-- A PouchDB error as observed by the query layer: only its `status` field is
inspected (`404` = not found, `409` = conflict, anything else = genuine I/O
failure). -/
structure PouchErr where
  status : Nat
deriving DecidableEq

/-- Model of `db.get(id)` on the gamedata collection.  `io` is the environment oracle:
`some e` means the underlying storage round trip itself fails with `e`
(a genuine I/O failure); `none` means storage is healthy, in which case a
missing identifier rejects with status 404. -/
def gdGet (io : Option PouchErr) (db : GameDB) (i : String) :
    Except PouchErr GameDataDoc :=
  match io with
  | some e => .error e
  | none =>
    match gdLookup db i with
    | some d => .ok d
    | none => .error { status := 404 }

/-- Model of `getGameDataById` from queries.ts: a 404 from `db.get` is mapped to an
explicit `null` result, every other error is re-thrown. -/
def getGameDataById (io : Option PouchErr) (db : GameDB) (i : String) :
    Except PouchErr (Option GameDataDoc) :=
  match gdGet io db i with
  | .ok d => .ok (some d)
  | .error e => if e.status = 404 then .ok none else .error e

/-! ## Search queries over gamedata -/

/-- Model of `GameDataQuery` from types.ts (the criteria fields used by
`queryGameData`). -/
structure GameDataQuery where
  type : Option GameType := none
  level : Option Int := none
  traits : Option (List String) := none
  search : Option String := none
  limit : Option Nat := none
  skip : Option Nat := none

/-- Case-insensitive substring match on the name, the effect of
`{ $regex: new RegExp(query.search, "i") }` for a metacharacter-free search
string. -/
def containsCI (hay pat : String) : Bool :=
  decide (List.IsInfix pat.toLower.toList hay.toLower.toList)

/-- The Mango selector built by `queryGameData`, evaluated on one document:
each present (truthy) criterion is a conjunct — `type` equality, exact
`system.level.value` equality, `$in` over `system.traits.value` (any-of
membership), and the case-insensitive name regex. -/
def matchesGameDataSelector (q : GameDataQuery) (d : GameDataDoc) : Bool :=
  (match q.type with
   | none => true
   | some t => d.type = t) &&
  (match q.level with
   | none => true
   | some l => d.system.levelValue = some l) &&
  (match q.traits with
   | none => true
   | some ts =>
     if ts.isEmpty then true
     else ts.any (fun t => (d.system.traitsValue.getD []).contains t)) &&
  (match q.search with
   | none => true
   | some s => if s = "" then true else containsCI d.name s)

/-- Model of `query.limit || 100`: an absent or zero (falsy) limit becomes the default
of 100. -/
def effLimit (l : Option Nat) : Nat :=
  match l with
  | none => 100
  | some 0 => 100
  | some n => n

/-- Model of `query.skip || 0`. -/
def effSkip (s : Option Nat) : Nat :=
  match s with
  | none => 0
  | some n => n

/-- Model of `db.find({ selector, limit, skip })` without a `sort` option: the matching
documents in the store's index order, with `skip` dropped and at most `limit`
returned. -/
def dbFind {α : Type} (db : List α) (sel : α → Bool) (limit skip : Nat) :
    List α :=
  ((db.filter sel).drop skip).take limit

/-- Model of `queryGameData` from queries.ts. -/
def queryGameData (db : GameDB) (q : GameDataQuery) : List GameDataDoc :=
  dbFind db (matchesGameDataSelector q) (effLimit q.limit) (effSkip q.skip)

/-! ## Character documents (types.ts) and CRUD (queries.ts) -/

/-- Model of `CharacterDoc.abilities`. -/
structure Abilities where
  str : Int
  dex : Int
  con : Int
  int : Int
  wis : Int
  cha : Int
deriving DecidableEq

/-- Model of `CharacterDoc.hp`. -/
structure HitPoints where
  current : Int
  max : Int
  temp : Int
deriving DecidableEq

/-- One entry of the `skills` record: proficiency rank and numeric modifier. -/
structure SkillProf where
  rank : Int
  modifier : Int
deriving DecidableEq

/-- One acquired feat: identifier, level acquired, feat type. -/
structure FeatRef where
  id : String
  level : Int
  featType : String
deriving DecidableEq

/-- One spell slot rank: maximum and current uses. -/
structure SpellSlot where
  max : Int
  current : Int
deriving DecidableEq

/-- One known spell reference. -/
structure SpellKnown where
  id : String
  level : Int
deriving DecidableEq

/-- The optional `spells` sub-document. -/
structure Spells where
  slots : List (Int × SpellSlot)
  known : List SpellKnown
deriving DecidableEq

/-- One equipment entry. -/
structure EquipmentItem where
  id : String
  quantity : Int
  equipped : Bool
  invested : Option Bool := none
deriving DecidableEq

/-- Currency totals. -/
structure Wealth where
  cp : Int
  sp : Int
  gp : Int
  pp : Int
deriving DecidableEq

/-- Model of `CharacterDoc` from types.ts.  Timestamps are milliseconds since the epoch
(`toISOString` is strictly monotone so the order is the ISO-string order);
`_rev` is the PouchDB revision number, `none` for a document that has never
been stored. -/
structure CharacterDoc where
  _id : String
  _rev : Option Nat := none
  name : String
  level : Int
  experience : Int
  ancestryId : String
  backgroundId : String
  classId : String
  abilities : Abilities
  hp : HitPoints
  skills : List (String × SkillProf)
  feats : List FeatRef
  spells : Option Spells
  equipment : List EquipmentItem
  wealth : Wealth
  notes : String
  createdAt : Nat
  updatedAt : Nat
  version : Int
deriving DecidableEq

/-- A characters collection in index order. -/
abbrev CharDB := List CharacterDoc

/-- First stored document at an identifier. -/
def charLookup (db : CharDB) (i : String) : Option CharacterDoc :=
  db.find? (fun c => c._id = i)

/-- Model of `db.get(id)` on the characters collection (same contract as `gdGet`). -/
def charGet (io : Option PouchErr) (db : CharDB) (i : String) :
    Except PouchErr CharacterDoc :=
  match io with
  | some e => .error e
  | none =>
    match charLookup db i with
    | some c => .ok c
    | none => .error { status := 404 }

/-- Model of `getCharacterById` from queries.ts: 404 becomes an explicit `null`, every
other error is re-thrown. -/
def getCharacterById (io : Option PouchErr) (db : CharDB) (i : String) :
    Except PouchErr (Option CharacterDoc) :=
  match charGet io db i with
  | .ok c => .ok (some c)
  | .error e => if e.status = 404 then .ok none else .error e

/-- Model of `db.put(doc)`: a document without `_rev` is created fresh (conflict when
the identifier already exists); a document carrying `_rev` must match the
stored revision, which is then bumped.  Returns the new store and the new
revision. -/
def charPut (db : CharDB) (doc : CharacterDoc) :
    Except PouchErr (CharDB × Nat) :=
  match charLookup db doc._id with
  | none =>
    match doc._rev with
    | none => .ok (db ++ [{ doc with _rev := some 1 }], 1)
    | some _ => .error { status := 409 }
  | some stored =>
    match stored._rev, doc._rev with
    | some r, some r2 =>
      if r2 = r then
        .ok (db.map (fun e => if e._id = doc._id then { doc with _rev := some (r + 1) } else e),
             r + 1)
      else .error { status := 409 }
    | _, _ => .error { status := 409 }

/-- Model of `db.remove(doc)`: deletes the stored document when the revision matches;
the identifier is gone from the store afterwards (a subsequent `get` is 404). -/
def charRemove (db : CharDB) (doc : CharacterDoc) :
    Except PouchErr CharDB :=
  match charLookup db doc._id with
  | some stored =>
    if stored._rev = doc._rev then
      .ok (db.filter (fun e => e._id ≠ doc._id))
    else .error { status := 409 }
  | none => .error { status := 404 }

/-- Model of `` `character_${Date.now()}_${Math.random().toString(36).slice(2, 11)}` ``:
the generated identifier, a pure function of the clock reading and the random
suffix oracle. -/
def mkCharId (nowMs : Nat) (rand : String) : String :=
  "character_" ++ toString nowMs ++ "_" ++ rand

/-- Model of `createCharacter` from queries.ts.  The caller's object is spread first and
the server-assigned fields (`_id`, `createdAt`, `updatedAt`, `version`) are
written over it, so caller-supplied values for those fields are ignored; the
`Omit` input type guarantees the caller cannot supply `_rev`.  `nowMs` is the
single `new Date()` reading, `rand` the random suffix. -/
def createCharacter (character : CharacterDoc) (nowMs : Nat) (rand : String)
    (db : CharDB) : Except PouchErr (CharacterDoc × CharDB) :=
  let newCharacter : CharacterDoc :=
    { character with
        _id := mkCharId nowMs rand
        createdAt := nowMs
        updatedAt := nowMs
        version := 1 }
  match charPut db newCharacter with
  | .ok (db2, rev) => .ok ({ newCharacter with _rev := some rev }, db2)
  | .error e => .error e

/-- Model of `updateCharacter` from queries.ts: overwrites `updatedAt` with the current
clock reading `nowMs` and writes the full document back. -/
def updateCharacter (character : CharacterDoc) (nowMs : Nat) (db : CharDB) :
    Except PouchErr (CharacterDoc × CharDB) :=
  let updatedCharacter : CharacterDoc := { character with updatedAt := nowMs }
  match charPut db updatedCharacter with
  | .ok (db2, rev) => .ok ({ updatedCharacter with _rev := some rev }, db2)
  | .error e => .error e

/-- Model of `deleteCharacter` from queries.ts: fetch the document, then remove it. -/
def deleteCharacter (io : Option PouchErr) (i : String) (db : CharDB) :
    Except PouchErr CharDB :=
  match charGet io db i with
  | .ok doc => charRemove db doc
  | .error e => .error e

/-- Model of `CharacterQuery` from types.ts. -/
structure CharacterQuery where
  level : Option Int := none
  classId : Option String := none
  minLevel : Option Int := none
  maxLevel : Option Int := none
  limit : Option Nat := none
  skip : Option Nat := none

/-- The selector built by `queryCharacters`: when `minLevel` or `maxLevel` is
present the range object overwrites any exact `level` criterion (the source
reassigns `selector.level`); a truthy `classId` adds an equality conjunct. -/
def matchesCharacterSelector (q : CharacterQuery) (c : CharacterDoc) : Bool :=
  (match q.minLevel, q.maxLevel with
   | none, none =>
     match q.level with
     | none => true
     | some l => c.level = l
   | mn, mx =>
     (match mn with
      | none => true
      | some a => a ≤ c.level) &&
     (match mx with
      | none => true
      | some b => c.level ≤ b)) &&
  (match q.classId with
   | none => true
   | some cid => if cid = "" then true else c.classId = cid)

/-- Model of `queryCharacters` from queries.ts. -/
def queryCharacters (db : CharDB) (q : CharacterQuery) : List CharacterDoc :=
  dbFind db (matchesCharacterSelector q) (effLimit q.limit) (effSkip q.skip)

/-! ## Preferences (types.ts, queries.ts) -/

/-- Model of `PreferencesDoc.theme`. -/
inductive Theme where
  | dark | light | auto
deriving DecidableEq

/-- Model of `PreferencesDoc.colorScheme`. -/
inductive ColorScheme where
  | default | blue | purple | green
deriving DecidableEq

/-- Model of `PreferencesDoc.fontSize`. -/
inductive FontSize where
  | sm | md | lg
deriving DecidableEq

/-- Model of `aiSettings.mode` (`"local" | "api"`; `localMode` stands for the source's
`"local"`, a Lean keyword). -/
inductive AIMode where
  | localMode | api
deriving DecidableEq

/-- Model of `aiSettings.apiProvider`. -/
inductive ApiProvider where
  | openai | anthropic | groq | gemini
deriving DecidableEq

/-- Model of `PreferencesDoc.aiSettings`. -/
structure AISettings where
  enabled : Bool
  mode : AIMode
  apiProvider : Option ApiProvider := none
  apiKey : Option String := none
  model : Option String := none
deriving DecidableEq

/-- Model of `PreferencesDoc` from types.ts (the `_rev` bookkeeping field is storage
metadata handled by the store model, not part of the document value). -/
structure PreferencesDoc where
  _id : String := "user_preferences"
  theme : Theme
  colorScheme : ColorScheme
  fontSize : FontSize
  animations : Bool
  sounds : Bool
  autoSave : Bool
  cloudSync : Bool
  supabaseUrl : Option String := none
  supabaseKey : Option String := none
  lastSyncAt : Option String := none
  aiSettings : AISettings
  onboardingComplete : Bool
  version : Int
deriving DecidableEq

/-- The `defaultPrefs` literal created by `getPreferences` on a 404. -/
def defaultPrefs : PreferencesDoc :=
  { _id := "user_preferences"
    theme := .dark
    colorScheme := .default
    fontSize := .md
    animations := true
    sounds := false
    autoSave := true
    cloudSync := false
    aiSettings := { enabled := false, mode := .localMode }
    onboardingComplete := false
    version := 1 }

/-- The preferences collection: documents keyed by identifier, in index
order. -/
abbrev PrefsDB := List (String × PreferencesDoc)

/-- Model of `db.get(id)` on the preferences collection. -/
def prefsGet (db : PrefsDB) (i : String) : Except PouchErr PreferencesDoc :=
  match db.find? (fun e => e.1 = i) with
  | some e => .ok e.2
  | none => .error { status := 404 }

/-- Model of `db.put(doc)` on the preferences collection: write the document at its
`_id`, overwriting an existing entry, appending a new one otherwise. -/
def prefsPut (db : PrefsDB) (doc : PreferencesDoc) : PrefsDB :=
  if db.any (fun e => e.1 = doc._id) then
    db.map (fun e => if e.1 = doc._id then (e.1, doc) else e)
  else
    db ++ [(doc._id, doc)]

/-- Model of `getPreferences` from queries.ts: fetch the singleton at the fixed
identifier `"user_preferences"`; on 404, create, persist and return
`defaultPrefs`; re-throw every other error.  Returns the document together
with the store after the call. -/
def getPreferences (db : PrefsDB) :
    Except PouchErr (PreferencesDoc × PrefsDB) :=
  match prefsGet db "user_preferences" with
  | .ok doc => .ok (doc, db)
  | .error e =>
    if e.status = 404 then .ok (defaultPrefs, prefsPut db defaultPrefs)
    else .error e

/-- The preferences store left behind by one `getPreferences` call. -/
def prefsStoreAfter (db : PrefsDB) : PrefsDB :=
  match getPreferences db with
  | .ok (_, db2) => db2
  | .error _ => db

/-! ## Module state: handles and sync management (db/index.ts) -/

/-- One replication handler created by `charactersDB.sync(remoteDB, ...)`:
the remote endpoint it replicates against and whether `cancel()` has been
called on it.  A cancelled handler has released its resources and fires no
further events. -/
structure Handler where
  endpoint : String
  cancelled : Bool
deriving DecidableEq

/-- The module-level mutable state of db/index.ts: the three lazily bound
database handles (`true` = the module variable is non-null), the persisted
contents behind each handle, the `charactersSyncHandler` variable (an index
into the log of every handler ever created), and that log. -/
structure ModuleState where
  gamedataDB : Bool
  charactersDB : Bool
  preferencesDB : Bool
  gamedataStore : GameDB
  charactersStore : CharDB
  preferencesStore : PrefsDB
  charactersSyncHandler : Option Nat
  handlers : List Handler
deriving DecidableEq

/-- The state at module load, before `initDatabases()` has run. -/
def initialState : ModuleState :=
  { gamedataDB := false
    charactersDB := false
    preferencesDB := false
    gamedataStore := []
    charactersStore := []
    preferencesStore := []
    charactersSyncHandler := none
    handlers := [] }

/-- A module-level database-access error
(`"... not initialized. Call initDatabases() first."`). -/
inductive DbError where
  | uninitialized (message : String)
deriving DecidableEq

/-- Model of `initDatabases` from db/index.ts: binds (creates or opens) all three
handles over the persisted stores; `createIndexes` declares secondary indices
and changes no data. -/
def initDatabases (s : ModuleState) : ModuleState :=
  { s with gamedataDB := true, charactersDB := true, preferencesDB := true }

/-- Model of `getGameDataDB`: throws synchronously when the handle is unbound, before
touching storage; otherwise hands out the collection. -/
def getGameDataDB (s : ModuleState) : Except DbError GameDB :=
  if s.gamedataDB then .ok s.gamedataStore
  else .error (.uninitialized
    "Gamedata database not initialized. Call initDatabases() first.")

/-- Model of `getCharactersDB` (same contract as `getGameDataDB`). -/
def getCharactersDB (s : ModuleState) : Except DbError CharDB :=
  if s.charactersDB then .ok s.charactersStore
  else .error (.uninitialized
    "Characters database not initialized. Call initDatabases() first.")

/-- Model of `getPreferencesDB` (same contract as `getGameDataDB`). -/
def getPreferencesDB (s : ModuleState) : Except DbError PrefsDB :=
  if s.preferencesDB then .ok s.preferencesStore
  else .error (.uninitialized
    "Preferences database not initialized. Call initDatabases() first.")

/-- Model of `closeDatabases` from db/index.ts: closes each bound handle and nulls the
three module variables.  It does not touch persisted data and does not touch
`charactersSyncHandler`. -/
def closeDatabases (s : ModuleState) : ModuleState :=
  { s with gamedataDB := false, charactersDB := false, preferencesDB := false }

/-- Model of `destroyDatabases` from db/index.ts: `closeDatabases()` followed by
destroying the persisted contents of all three collections.  Nothing in its
body reads or cancels `charactersSyncHandler`, and the handles stay unbound
until `initDatabases()` is called again. -/
def destroyDatabases (s : ModuleState) : ModuleState :=
  { closeDatabases s with
      gamedataStore := []
      charactersStore := []
      preferencesStore := [] }

/-- Mark the handler at index `i` of the log as cancelled
(`handler.cancel()`). -/
def cancelAt : List Handler → Nat → List Handler
  | [], _ => []
  | h :: t, 0 => { h with cancelled := true } :: t
  | h :: t, n + 1 => h :: cancelAt t n

/-- Model of `startCharactersSync(remoteUrl)` from db/index.ts: throws when the
characters handle is unbound; cancels the previous handler when one is active;
then creates a fresh live handler against `remoteUrl` and stores it in
`charactersSyncHandler`.  Returns the new state and the index of the new
handler in the log. -/
def startCharactersSync (s : ModuleState) (remoteUrl : String) :
    Except DbError (ModuleState × Nat) :=
  if s.charactersDB = false then
    .error (.uninitialized "Characters database not initialized")
  else
    let s1 :=
      match s.charactersSyncHandler with
      | some i => { s with handlers := cancelAt s.handlers i }
      | none => s
    let idx := s1.handlers.length
    .ok ({ s1 with
             handlers := s1.handlers ++ [{ endpoint := remoteUrl, cancelled := false }]
             charactersSyncHandler := some idx },
         idx)

/-- Model of `stopCharactersSync` from db/index.ts: cancels the active handler and
nulls the variable; a no-op when no handler is active. -/
def stopCharactersSync (s : ModuleState) : ModuleState :=
  match s.charactersSyncHandler with
  | some i =>
    { s with handlers := cancelAt s.handlers i, charactersSyncHandler := none }
  | none => s

/-- Model of `isSyncActive` from db/index.ts. -/
def isSyncActive (s : ModuleState) : Bool :=
  s.charactersSyncHandler.isSome

/-- The module invariant maintained by the sync manager: the stored handler
index points into the log, and every handler in the log that is not cancelled
is exactly the stored one. -/
def syncInv (s : ModuleState) : Prop :=
  (∀ i, s.charactersSyncHandler = some i → i < s.handlers.length) ∧
  (∀ (j : Nat) (h : Handler), s.handlers[j]? = some h → h.cancelled = false →
    s.charactersSyncHandler = some j)

/-! ## Store lemmas for the bulk importer -/

/-- The last document of a write batch carrying a given identifier (the write
that survives, since later writes overwrite earlier ones). -/
def lastWrite : List GameDataDoc → String → Option GameDataDoc
  | [], _ => none
  | d :: ds, i =>
    match lastWrite ds i with
    | some x => some x
    | none => if d._id = i then some d else none

theorem gdLookup_nil (i : String) : gdLookup [] i = none := rfl

theorem gdLookup_cons (a : GameDataDoc) (t : GameDB) (i : String) :
    gdLookup (a :: t) i = if a._id = i then some a else gdLookup t i := by
  simp only [gdLookup, List.find?_cons]
  by_cases h : a._id = i <;> simp [h]

theorem gdLookup_eq_none_of_not_mem (db : GameDB) (i : String)
    (h : i ∉ gdIds db) : gdLookup db i = none := by
  induction db with
  | nil => rfl
  | cons a t ih =>
    rw [gdLookup_cons]
    simp only [gdIds, List.map_cons, List.mem_cons, not_or] at h
    rw [if_neg (fun hh => h.1 hh.symm)]
    exact ih (fun hm => h.2 (by simpa [gdIds] using hm))

theorem gdLookup_map_replace (d : GameDataDoc) (db : GameDB) (i : String) :
    gdLookup (db.map (fun e => if e._id = d._id then d else e)) i =
      if i = d._id then
        (if db.any (fun e => e._id = d._id) then some d else none)
      else gdLookup db i := by
  induction db with
  | nil => by_cases h : i = d._id <;> simp [gdLookup, h]
  | cons a t ih =>
    by_cases ha : a._id = d._id <;> by_cases hi : i = d._id
    · subst hi
      simp [gdLookup_cons, ha, ih]
    · have hdi : ¬ d._id = i := fun h => hi h.symm
      have hai : ¬ a._id = i := fun h => hdi (ha.symm.trans h)
      simp [gdLookup_cons, ha, hi, hdi, hai, ih]
    · subst hi
      simp [gdLookup_cons, ha, ih]
    · simp only [List.map_cons, if_neg ha, List.any_cons]
      rw [gdLookup_cons, gdLookup_cons, ih]
      rw [if_neg hi, if_neg hi]

theorem gdLookup_append_single (db : GameDB) (d : GameDataDoc) (i : String) :
    gdLookup (db ++ [d]) i =
      match gdLookup db i with
      | some x => some x
      | none => if d._id = i then some d else none := by
  induction db with
  | nil =>
    show gdLookup [d] i = _
    rw [gdLookup_cons]
    by_cases h : d._id = i <;> simp [gdLookup, h]
  | cons a t ih =>
    rw [List.cons_append, gdLookup_cons, gdLookup_cons]
    by_cases hai : a._id = i
    · rw [if_pos hai, if_pos hai]
    · rw [if_neg hai, if_neg hai, ih]

theorem gdLookup_upsert (db : GameDB) (d : GameDataDoc) (i : String) :
    gdLookup (gdUpsert db d) i =
      if i = d._id then some d else gdLookup db i := by
  unfold gdUpsert
  by_cases hp : db.any (fun e => e._id = d._id)
  · rw [if_pos hp, gdLookup_map_replace, if_pos hp]
  · rw [if_neg hp, gdLookup_append_single]
    have hnm : d._id ∉ gdIds db := by
      intro hm
      rcases List.mem_map.mp hm with ⟨e, he, hee⟩
      exact hp (List.any_eq_true.mpr ⟨e, he, by simp [hee]⟩)
    by_cases hi : i = d._id
    · subst hi
      rw [gdLookup_eq_none_of_not_mem db d._id hnm]
    · have hdi : ¬ d._id = i := fun h => hi h.symm
      rw [if_neg hi]
      cases hl : gdLookup db i with
      | some x => rfl
      | none => simp [hdi]

theorem gdLookup_bulkDocs (docs : List GameDataDoc) :
    ∀ (db : GameDB) (i : String),
      gdLookup (bulkDocs db docs) i =
        match lastWrite docs i with
        | some x => some x
        | none => gdLookup db i := by
  induction docs with
  | nil => intro db i; rfl
  | cons d ds ih =>
    intro db i
    show gdLookup (bulkDocs (gdUpsert db d) ds) i = _
    rw [ih (gdUpsert db d) i, gdLookup_upsert]
    show _ = (match (match lastWrite ds i with
        | some x => some x
        | none => if d._id = i then some d else none) with
      | some x => some x
      | none => gdLookup db i)
    cases hlw : lastWrite ds i with
    | some x => rfl
    | none =>
      by_cases hi : i = d._id
      · rw [if_pos hi]
        simp [hi]
      · rw [if_neg hi, if_neg (fun hh : d._id = i => hi hh.symm)]

theorem gdIds_upsert (db : GameDB) (d : GameDataDoc) :
    gdIds (gdUpsert db d) =
      if db.any (fun e => e._id = d._id) then gdIds db
      else gdIds db ++ [d._id] := by
  unfold gdUpsert
  by_cases hp : db.any (fun e => e._id = d._id)
  · rw [if_pos hp, if_pos hp]
    show (db.map _).map _ = _
    rw [List.map_map]
    apply List.map_congr_left
    intro e _
    by_cases he : e._id = d._id <;> simp [he]
  · rw [if_neg hp, if_neg hp]
    simp [gdIds]

theorem mem_gdIds_upsert_self (db : GameDB) (d : GameDataDoc) :
    d._id ∈ gdIds (gdUpsert db d) := by
  rw [gdIds_upsert]
  by_cases hp : db.any (fun e => e._id = d._id)
  · rw [if_pos hp]
    rcases List.any_eq_true.mp hp with ⟨e, he, hee⟩
    simp only [decide_eq_true_eq] at hee
    exact hee ▸ List.mem_map_of_mem GameDataDoc._id he
  · rw [if_neg hp]
    exact List.mem_append_right _ (List.mem_singleton.mpr rfl)

theorem mem_gdIds_upsert_mono (db : GameDB) (d : GameDataDoc) (i : String)
    (h : i ∈ gdIds db) : i ∈ gdIds (gdUpsert db d) := by
  rw [gdIds_upsert]
  by_cases hp : db.any (fun e => e._id = d._id)
  · rwa [if_pos hp]
  · rw [if_neg hp]; exact List.mem_append_left _ h

theorem mem_gdIds_bulkDocs_mono (docs : List GameDataDoc) :
    ∀ (db : GameDB) (i : String), i ∈ gdIds db → i ∈ gdIds (bulkDocs db docs) := by
  induction docs with
  | nil => intro db i h; exact h
  | cons d ds ih =>
    intro db i h
    exact ih (gdUpsert db d) i (mem_gdIds_upsert_mono db d i h)

theorem mem_gdIds_bulkDocs (docs : List GameDataDoc) :
    ∀ (db : GameDB) (d : GameDataDoc), d ∈ docs →
      d._id ∈ gdIds (bulkDocs db docs) := by
  induction docs with
  | nil => intro db d h; cases h
  | cons a ds ih =>
    intro db d h
    rcases List.mem_cons.mp h with h | h
    · subst h
      exact mem_gdIds_bulkDocs_mono ds (gdUpsert db d) d._id
        (mem_gdIds_upsert_self db d)
    · exact ih (gdUpsert db a) d h

theorem gdIds_upsert_of_mem (db : GameDB) (d : GameDataDoc)
    (h : d._id ∈ gdIds db) : gdIds (gdUpsert db d) = gdIds db := by
  rw [gdIds_upsert, if_pos]
  rcases List.mem_map.mp h with ⟨e, he, hee⟩
  exact List.any_eq_true.mpr ⟨e, he, by simp [hee]⟩

theorem gdIds_bulkDocs_of_subset (docs : List GameDataDoc) :
    ∀ (db : GameDB), (∀ d ∈ docs, d._id ∈ gdIds db) →
      gdIds (bulkDocs db docs) = gdIds db := by
  induction docs with
  | nil => intro db _; rfl
  | cons d ds ih =>
    intro db h
    have hd : gdIds (gdUpsert db d) = gdIds db :=
      gdIds_upsert_of_mem db d (h d (List.mem_cons_self d ds))
    show gdIds (bulkDocs (gdUpsert db d) ds) = gdIds db
    rw [ih (gdUpsert db d) (fun e he => hd ▸ h e (List.mem_cons_of_mem d he)), hd]

theorem nodup_gdIds_upsert (db : GameDB) (d : GameDataDoc)
    (h : (gdIds db).Nodup) : (gdIds (gdUpsert db d)).Nodup := by
  rw [gdIds_upsert]
  by_cases hp : db.any (fun e => e._id = d._id)
  · rwa [if_pos hp]
  · rw [if_neg hp]
    rw [List.nodup_append]
    refine ⟨h, List.nodup_singleton _, ?_⟩
    intro x hx hxd
    rw [List.mem_singleton] at hxd
    subst hxd
    rcases List.mem_map.mp hx with ⟨e, he, hee⟩
    exact hp (List.any_eq_true.mpr ⟨e, he, by simp [hee]⟩)

theorem nodup_gdIds_bulkDocs (docs : List GameDataDoc) :
    ∀ (db : GameDB), (gdIds db).Nodup → (gdIds (bulkDocs db docs)).Nodup := by
  induction docs with
  | nil => intro db h; exact h
  | cons d ds ih =>
    intro db h
    exact ih (gdUpsert db d) (nodup_gdIds_upsert db d h)

theorem gd_ext : ∀ (l1 l2 : GameDB), gdIds l1 = gdIds l2 → (gdIds l1).Nodup →
    (∀ i, gdLookup l1 i = gdLookup l2 i) → l1 = l2 := by
  intro l1
  induction l1 with
  | nil =>
    intro l2 hid _ _
    cases l2 with
    | nil => rfl
    | cons b t2 => exact absurd hid (by simp [gdIds])
  | cons a t1 ih =>
    intro l2 hid hnd hlk
    cases l2 with
    | nil => exact absurd hid (by simp [gdIds])
    | cons b t2 =>
      simp only [gdIds, List.map_cons, List.cons.injEq] at hid
      obtain ⟨hab, htl⟩ := hid
      have hhead : a = b := by
        have h1 : gdLookup (a :: t1) a._id = some a := by
          rw [gdLookup_cons, if_pos rfl]
        have h2 : gdLookup (b :: t2) a._id = some b := by
          rw [gdLookup_cons, if_pos hab.symm]
        exact Option.some.inj ((h1.symm.trans (hlk a._id)).trans h2)
      subst hhead
      simp only [gdIds, List.map_cons, List.nodup_cons] at hnd
      have htlk : ∀ i, gdLookup t1 i = gdLookup t2 i := by
        intro i
        by_cases hi : a._id = i
        · subst hi
          rw [gdLookup_eq_none_of_not_mem t1 a._id hnd.1,
            gdLookup_eq_none_of_not_mem t2 a._id
              (by rw [gdIds, ← htl]; exact hnd.1)]
        · have := hlk i
          rwa [gdLookup_cons, gdLookup_cons, if_neg hi, if_neg hi] at this
      exact congrArg (a :: ·) (ih t2 htl hnd.2 htlk)

/-! ## C1 -/

/-- C1. Bulk import is idempotent: for any category, running `loadPack`
twice in succession against unchanged source data returns the same result and
leaves the same store — the same record identifiers bound to the same field
values — as running it once, because every written identifier is derived
deterministically from the source record (its own `_id`, or category name plus
normalized name), never randomly.  The hypothesis is the store invariant that
identifiers are unique. -/
theorem loadPack_idempotent (packName : String) (src : List SourceDoc)
    (db : GameDB) (hnd : (gdIds db).Nodup) :
    loadPack packName src (loadPack packName src db).db =
      loadPack packName src db := by
  by_cases hsrc : src.isEmpty
  · simp [loadPack, hsrc]
  · simp only [loadPack, if_neg hsrc]
    set G := src.map (transformDoc packName) with hG
    have hdb : bulkDocs (bulkDocs db G) G = bulkDocs db G := by
      apply gd_ext
      · exact gdIds_bulkDocs_of_subset G (bulkDocs db G)
          (fun d hd => mem_gdIds_bulkDocs G db d hd)
      · exact nodup_gdIds_bulkDocs G (bulkDocs db G)
          (nodup_gdIds_bulkDocs G db hnd)
      · intro i
        rw [gdLookup_bulkDocs, gdLookup_bulkDocs]
        cases lastWrite G i <;> rfl
    rw [hdb]

/-- Closed witness for C1: a concrete two-record pack imported twice into the
empty store. -/
theorem loadPack_idempotent_witness :
    (gdIds ([] : GameDB)).Nodup ∧
      loadPack "feats"
          [{ name := some "Power Attack" }, { _id := some "x", name := some "B" }]
          (loadPack "feats"
            [{ name := some "Power Attack" }, { _id := some "x", name := some "B" }]
            []).db =
        loadPack "feats"
          [{ name := some "Power Attack" }, { _id := some "x", name := some "B" }]
          [] :=
  ⟨List.nodup_nil, loadPack_idempotent "feats" _ [] List.nodup_nil⟩

/-! ## C2 -/

/-- A feat named late in the alphabet, stored first. -/
def featZ : GameDataDoc :=
  { _id := "a", type := .feat, name := "zzz", system := { levelValue := some 3 } }

/-- A feat named early in the alphabet, stored second. -/
def featA : GameDataDoc :=
  { _id := "b", type := .feat, name := "aaa", system := { levelValue := some 3 } }

/-- C2 counterexample. `queryGameData` issues `db.find` without a `sort`
option and returns `result.docs` as-is, so the result follows the store's
index order, not display-name order: with two level-3 feats stored as
`"zzz"` before `"aaa"`, the query returns them in that order, which is not
sorted by name ascending. -/
theorem queryGameData_not_sorted_counterexample :
    (queryGameData [featZ, featA]
        { type := some .feat, level := some 3 }).map GameDataDoc.name =
      ["zzz", "aaa"] ∧
    ¬ List.Sorted (fun a b : String => a ≤ b)
        ((queryGameData [featZ, featA]
          { type := some .feat, level := some 3 }).map GameDataDoc.name) := by
  have h : (queryGameData [featZ, featA]
      { type := some .feat, level := some 3 }).map GameDataDoc.name =
      ["zzz", "aaa"] := by rfl
  refine ⟨h, ?_⟩
  rw [h]
  simp only [List.sorted_cons, List.mem_singleton, List.mem_cons]
  intro hs
  have hz : ("zzz" : String) ≤ "aaa" := hs.1 "aaa" (by simp)
  rw [String.le_iff_toList_le] at hz
  exact absurd hz (by decide)

/-- C2 (amended). For a query combining a category tag with an exact
level, `queryGameData` applies the criteria as a logical AND: it returns
exactly the records carrying that tag whose nested `system.level.value`
equals the level, in the store's index order (NOT sorted by display name),
truncated to the default limit of 100; when nothing matches the result is the
empty list, not an error. -/
theorem queryGameData_type_level (db : GameDB) (t : GameType) (l : Int) :
    queryGameData db { type := some t, level := some l } =
      (db.filter (fun d => d.type = t ∧ d.system.levelValue = some l)).take 100 ∧
    (∀ d ∈ queryGameData db { type := some t, level := some l },
      d.type = t ∧ d.system.levelValue = some l) ∧
    ((∀ d ∈ db, ¬ (d.type = t ∧ d.system.levelValue = some l)) →
      queryGameData db { type := some t, level := some l } = []) := by
  have hsel : ∀ d ∈ db,
      matchesGameDataSelector { type := some t, level := some l } d =
        decide (d.type = t ∧ d.system.levelValue = some l) := by
    intro d _
    simp [matchesGameDataSelector, Bool.decide_and]
  have hq : queryGameData db { type := some t, level := some l } =
      (db.filter (fun d => d.type = t ∧ d.system.levelValue = some l)).take 100 := by
    show (((db.filter _).drop (effSkip none)).take (effLimit none)) = _
    rw [show effSkip none = 0 from rfl, List.drop_zero,
      show effLimit none = 100 from rfl, List.filter_congr hsel]
  refine ⟨hq, ?_, ?_⟩
  · intro d hd
    rw [hq] at hd
    have hmem := List.take_subset 100 _ hd
    have := List.of_mem_filter hmem
    exact of_decide_eq_true this
  · intro hnone
    rw [hq]
    have : db.filter (fun d => d.type = t ∧ d.system.levelValue = some l) = [] := by
      rw [List.filter_eq_nil_iff]
      intro d hd
      simp only [decide_eq_true_eq]
      exact hnone d hd
    rw [this, List.take_nil]

/-- Closed witness for C2's amended theorem, applied to a one-document store. -/
theorem queryGameData_type_level_witness :
    queryGameData [featZ] { type := some .feat, level := some 3 } =
      (([featZ] : GameDB).filter
        (fun d => d.type = .feat ∧ d.system.levelValue = some 3)).take 100 :=
  (queryGameData_type_level [featZ] .feat 3).1

/-! ## C7 -/

/-- C7. For every identifier not present in the store (and a healthy
storage round trip), `getGameDataById` and `getCharacterById` return an
explicit `.ok none` rather than throwing; and whenever either function does
throw, the thrown error's status is not 404 — i.e. they throw only for
genuine I/O failure. -/
theorem getById_not_found (gdb : GameDB) (cdb : CharDB) (i : String)
    (hg : gdLookup gdb i = none) (hc : charLookup cdb i = none) :
    getGameDataById none gdb i = .ok none ∧
    getCharacterById none cdb i = .ok none ∧
    (∀ (io : Option PouchErr) (db2 : GameDB) (j : String) (e : PouchErr),
      getGameDataById io db2 j = .error e → e.status ≠ 404) ∧
    (∀ (io : Option PouchErr) (db2 : CharDB) (j : String) (e : PouchErr),
      getCharacterById io db2 j = .error e → e.status ≠ 404) := by
  refine ⟨?_, ?_, ?_, ?_⟩
  · simp [getGameDataById, gdGet, hg]
  · simp [getCharacterById, charGet, hc]
  · intro io db2 j e he
    cases io with
    | none =>
      simp only [getGameDataById, gdGet] at he
      cases hl : gdLookup db2 j with
      | some d => rw [hl] at he; cases he
      | none =>
        rw [hl] at he
        simp at he
    | some f =>
      simp only [getGameDataById, gdGet] at he
      by_cases hf : f.status = 404
      · rw [if_pos hf] at he; cases he
      · rw [if_neg hf] at he
        cases he
        exact hf
  · intro io db2 j e he
    cases io with
    | none =>
      simp only [getCharacterById, charGet] at he
      cases hl : charLookup db2 j with
      | some d => rw [hl] at he; cases he
      | none =>
        rw [hl] at he
        simp at he
    | some f =>
      simp only [getCharacterById, charGet] at he
      by_cases hf : f.status = 404
      · rw [if_pos hf] at he; cases he
      · rw [if_neg hf] at he
        cases he
        exact hf

/-- Closed witness for C7: the empty stores and a missing identifier. -/
theorem getById_not_found_witness :
    getGameDataById none [] "missing" = .ok none ∧
    getCharacterById none [] "missing" = .ok none :=
  ⟨(getById_not_found [] [] "missing" rfl rfl).1,
   (getById_not_found [] [] "missing" rfl rfl).2.1⟩

/-! ## C10 -/

/-- C10. Implicit pagination cap: when no limit is supplied — or the
supplied limit is 0, which `query.limit || 100` treats the same as absent —
both `queryGameData` and `queryCharacters` return at most 100 documents. -/
theorem query_default_limit (gq : GameDataQuery) (cq : CharacterQuery)
    (gdb : GameDB) (cdb : CharDB)
    (hg : gq.limit = none ∨ gq.limit = some 0)
    (hc : cq.limit = none ∨ cq.limit = some 0) :
    (queryGameData gdb gq).length ≤ 100 ∧
    (queryCharacters cdb cq).length ≤ 100 := by
  have hgl : effLimit gq.limit = 100 := by
    rcases hg with h | h <;> simp [effLimit, h]
  have hcl : effLimit cq.limit = 100 := by
    rcases hc with h | h <;> simp [effLimit, h]
  constructor
  · show ((((gdb.filter _).drop _)).take (effLimit gq.limit)).length ≤ 100
    rw [hgl]
    exact List.length_take_le 100 _
  · show ((((cdb.filter _).drop _)).take (effLimit cq.limit)).length ≤ 100
    rw [hcl]
    exact List.length_take_le 100 _

/-- Closed witness for C10: a zero limit on one query, an absent limit on the
other. -/
theorem query_default_limit_witness :
    (queryGameData [featZ] { limit := some 0 }).length ≤ 100 ∧
    (queryCharacters [] {}).length ≤ 100 :=
  query_default_limit { limit := some 0 } {} [featZ] []
    (Or.inr rfl) (Or.inl rfl)

/-! ## Character store lemmas -/

theorem charLookup_cons (a : CharacterDoc) (t : CharDB) (i : String) :
    charLookup (a :: t) i = if a._id = i then some a else charLookup t i := by
  simp only [charLookup, List.find?_cons]
  by_cases h : a._id = i <;> simp [h]

theorem charLookup_eq_none_iff (db : CharDB) (i : String) :
    charLookup db i = none ↔ ∀ c ∈ db, c._id ≠ i := by
  simp [charLookup, List.find?_eq_none]

theorem charLookup_append_single (db : CharDB) (d : CharacterDoc) (i : String) :
    charLookup (db ++ [d]) i =
      match charLookup db i with
      | some x => some x
      | none => if d._id = i then some d else none := by
  induction db with
  | nil =>
    show charLookup [d] i = _
    rw [charLookup_cons]
    by_cases h : d._id = i <;> simp [charLookup, h]
  | cons a t ih =>
    rw [List.cons_append, charLookup_cons, charLookup_cons]
    by_cases hai : a._id = i
    · rw [if_pos hai, if_pos hai]
    · rw [if_neg hai, if_neg hai, ih]

theorem charMap_replace_of_fresh (db : CharDB) (y : CharacterDoc) (i : String)
    (h : ∀ c ∈ db, c._id ≠ i) :
    db.map (fun e => if e._id = i then y else e) = db := by
  have hc : ∀ c ∈ db, (if c._id = i then y else c) = id c :=
    fun c hcm => if_neg (h c hcm)
  rw [List.map_congr_left hc, List.map_id]

theorem charLookup_filter_ne (db : CharDB) (i : String) :
    charLookup (db.filter (fun e => e._id ≠ i)) i = none := by
  rw [charLookup_eq_none_iff]
  intro c hcm
  have := List.of_mem_filter hcm
  simpa using this

theorem charPut_absent (db : CharDB) (doc y : CharacterDoc)
    (hl : charLookup db doc._id = none) (hdr : doc._rev = none)
    (hy : y = { doc with _rev := some 1 }) :
    charPut db doc = .ok (db ++ [y], 1) := by
  unfold charPut
  simp only [hl, hdr, hy]

theorem charPut_present (db : CharDB) (doc stored y : CharacterDoc) (r : Nat)
    (i : String) (hi : doc._id = i)
    (hl : charLookup db i = some stored) (hr : stored._rev = some r)
    (hdr : doc._rev = some r) (hy : y = { doc with _rev := some (r + 1) }) :
    charPut db doc = .ok (db.map (fun e => if e._id = i then y else e), r + 1) := by
  unfold charPut
  simp only [hi, hl, hr, hdr, hy]
  simp

theorem charRemove_present (db : CharDB) (doc stored : CharacterDoc)
    (i : String) (hi : doc._id = i)
    (hl : charLookup db i = some stored) (hrev : stored._rev = doc._rev) :
    charRemove db doc = .ok (db.filter (fun e => e._id ≠ i)) := by
  unfold charRemove
  simp only [hi, hl, hrev]
  simp

/-! ## C5 -/

/-- A caller-supplied character object (with junk in the server-assigned
fields, which `createCharacter` must ignore). -/
def sampleCharacter : CharacterDoc :=
  { _id := "caller-chosen-id"
    _rev := none
    name := "Ezren"
    level := 1
    experience := 0
    ancestryId := "human"
    backgroundId := "scholar"
    classId := "wizard"
    abilities := { str := 10, dex := 12, con := 14, int := 18, wis := 10, cha := 10 }
    hp := { current := 15, max := 15, temp := 0 }
    skills := [("arcana", { rank := 1, modifier := 7 })]
    feats := []
    spells := none
    equipment := []
    wealth := { cp := 0, sp := 0, gp := 15, pp := 0 }
    notes := ""
    createdAt := 77
    updatedAt := 88
    version := 99 }

/-- The document as stored after `createCharacter sampleCharacter` at clock
500 with random suffix `"abc"`, then updated at clock 1000. -/
def storedSample : CharacterDoc :=
  { sampleCharacter with
      _id := mkCharId 500 "abc"
      _rev := some 1
      createdAt := 500
      updatedAt := 1000
      version := 1 }

/-- The document `createCharacter sampleCharacter` produces at clock 500 with
random suffix `"abc"`. -/
def createdSample : CharacterDoc :=
  { sampleCharacter with
      _id := mkCharId 500 "abc"
      _rev := some 1
      createdAt := 500
      updatedAt := 500
      version := 1 }

/-- C5 counterexample. `updateCharacter` stamps `updatedAt` with the
current wall-clock reading (`new Date().toISOString()` has millisecond
resolution); when the update runs in the same clock instant as the previous
write, the new `updatedAt` EQUALS the stored one instead of being strictly
later: updating `storedSample` (stored `updatedAt` = 1000) at clock reading
1000 returns `updatedAt` = 1000. -/
theorem updateCharacter_not_strictly_later :
    (updateCharacter storedSample 1000 [storedSample]).map
        (fun p => p.1.updatedAt) = Except.ok storedSample.updatedAt ∧
    ¬ storedSample.updatedAt < storedSample.updatedAt :=
  ⟨rfl, Nat.lt_irrefl _⟩

/-- C5 (amended). Character CRUD round-trips: `createCharacter` overwrites
any caller-supplied identifier/timestamp/version, assigning the generated
`_id`, equal `createdAt` and `updatedAt` (the single clock reading) and
version 1, and returns a document equal to the input on every other field,
which a subsequent `getCharacterById` retrieves; `updateCharacter` always
overwrites `updatedAt` with the current clock reading — strictly later than
the stored timestamp exactly when the clock has advanced; `deleteCharacter`
is a true removal, after which `getCharacterById` returns the not-found
result. -/
theorem characterCrud_roundTrip (c d : CharacterDoc) (t t2 : Nat) (r : String)
    (db db1 : CharDB)
    (hrev : c._rev = none)
    (hfresh : charLookup db (mkCharId t r) = none)
    (hcreate : createCharacter c t r db = .ok (d, db1)) :
    (d._id = mkCharId t r ∧ d.createdAt = t ∧ d.updatedAt = t ∧
      d.version = 1 ∧ d._rev = some 1) ∧
    (d.name = c.name ∧ d.level = c.level ∧ d.experience = c.experience ∧
      d.ancestryId = c.ancestryId ∧ d.backgroundId = c.backgroundId ∧
      d.classId = c.classId ∧ d.abilities = c.abilities ∧ d.hp = c.hp ∧
      d.skills = c.skills ∧ d.feats = c.feats ∧ d.spells = c.spells ∧
      d.equipment = c.equipment ∧ d.wealth = c.wealth ∧ d.notes = c.notes) ∧
    getCharacterById none db1 d._id = .ok (some d) ∧
    (∀ e db2, updateCharacter d t2 db1 = .ok (e, db2) →
      e.updatedAt = t2 ∧ (t < t2 → d.updatedAt < e.updatedAt) ∧
      getCharacterById none db2 d._id = .ok (some e)) ∧
    (updateCharacter d t2 db1).isOk ∧
    (∀ db3, deleteCharacter none d._id db1 = .ok db3 →
      getCharacterById none db3 d._id = .ok none) ∧
    (deleteCharacter none d._id db1).isOk := by
  have hput : charPut db
      { c with
          _id := mkCharId t r
          createdAt := t
          updatedAt := t
          version := 1 } =
      .ok (db ++
        [{ c with
            _id := mkCharId t r
            createdAt := t
            updatedAt := t
            version := 1
            _rev := some 1 }], 1) :=
    charPut_absent db _ _ hfresh hrev rfl
  have hd : d =
      { c with
          _id := mkCharId t r
          createdAt := t
          updatedAt := t
          version := 1
          _rev := some 1 } ∧ db1 = db ++ [d] := by
    simp only [createCharacter] at hcreate
    rw [hput] at hcreate
    simp only [Except.ok.injEq, Prod.mk.injEq] at hcreate
    obtain ⟨h1, h2⟩ := hcreate
    refine ⟨h1.symm, ?_⟩
    rw [← h2, ← h1]
  obtain ⟨hdeq, hdb1⟩ := hd
  have hfreshAll : ∀ x ∈ db, x._id ≠ mkCharId t r :=
    (charLookup_eq_none_iff db (mkCharId t r)).mp hfresh
  have hdid : d._id = mkCharId t r := by rw [hdeq]
  have hrev1 : d._rev = some 1 := by rw [hdeq]
  have hdup : d.updatedAt = t := by rw [hdeq]
  have hn : charLookup db d._id = none := by
    rw [charLookup_eq_none_iff]
    intro x hx
    rw [hdid]
    exact hfreshAll x hx
  have hlk1 : charLookup db1 d._id = some d := by
    rw [hdb1, charLookup_append_single, hn]
    simp
  have hput2 : charPut db1 { d with updatedAt := t2 } =
      .ok (db1.map (fun x => if x._id = d._id then
        { d with updatedAt := t2, _rev := some 2 } else x), 2) :=
    charPut_present db1 _ d _ 1 d._id rfl hlk1 hrev1 hrev1 rfl
  have hrem : charRemove db1 d =
      .ok (db1.filter (fun e => e._id ≠ d._id)) :=
    charRemove_present db1 d d d._id rfl hlk1 rfl
  refine ⟨?_, ?_, ?_, ?_, ?_, ?_, ?_⟩
  · rw [hdeq]
    exact ⟨rfl, rfl, rfl, rfl, rfl⟩
  · rw [hdeq]
    exact ⟨rfl, rfl, rfl, rfl, rfl, rfl, rfl, rfl, rfl, rfl, rfl, rfl, rfl, rfl⟩
  · simp [getCharacterById, charGet, hlk1]
  · intro e db2 hupd
    simp only [updateCharacter] at hupd
    rw [hput2] at hupd
    simp only [Except.ok.injEq, Prod.mk.injEq] at hupd
    obtain ⟨he, hdb2⟩ := hupd
    have hmap : db1.map (fun x => if x._id = d._id then
        { d with updatedAt := t2, _rev := some 2 } else x) =
        db ++ [{ d with updatedAt := t2, _rev := some 2 }] := by
      rw [hdb1, List.map_append]
      rw [charMap_replace_of_fresh db _ d._id
        (fun x hx => by rw [hdid]; exact hfreshAll x hx)]
      simp
    refine ⟨?_, ?_, ?_⟩
    · rw [← he]
    · intro hlt
      rw [← he, hdup]
      exact hlt
    · rw [← hdb2, hmap, ← he]
      have hlk2 : charLookup
          (db ++ [{ d with updatedAt := t2, _rev := some 2 }]) d._id =
          some { d with updatedAt := t2, _rev := some 2 } := by
        rw [charLookup_append_single, hn]
        simp
      simp [getCharacterById, charGet, hlk2]
  · simp only [updateCharacter]
    rw [hput2]
    rfl
  · intro db3 hdel
    simp only [deleteCharacter, charGet, hlk1] at hdel
    rw [hrem] at hdel
    simp only [Except.ok.injEq] at hdel
    rw [← hdel]
    have hlkf := charLookup_filter_ne db1 d._id
    simp only [getCharacterById, charGet, hlkf]
    simp
  · simp [deleteCharacter, charGet, hlk1, hrem, Except.isOk, Except.toBool]

/-- Closed witness for C5's amended theorem: the concrete created document is
retrievable from the store that `createCharacter` builds. -/
theorem characterCrud_roundTrip_witness :
    getCharacterById none [createdSample] createdSample._id =
      .ok (some createdSample) := by
  have h := characterCrud_roundTrip sampleCharacter createdSample
    500 1000 "abc" [] [createdSample] rfl rfl rfl
  have h3 := h.2.2.1
  have hid : createdSample._id = mkCharId 500 "abc" := rfl
  rw [hid]
  exact h3

/-! ## C6 -/

theorem prefsPut_keys (db : PrefsDB) (doc : PreferencesDoc) :
    (prefsPut db doc).map Prod.fst =
      if db.any (fun e => e.1 = doc._id) then db.map Prod.fst
      else db.map Prod.fst ++ [doc._id] := by
  unfold prefsPut
  by_cases hp : db.any (fun e => e.1 = doc._id)
  · rw [if_pos hp, if_pos hp, List.map_map]
    apply List.map_congr_left
    intro e _
    by_cases he : e.1 = doc._id <;> simp [he]
  · rw [if_neg hp, if_neg hp]
    simp

theorem prefsStoreAfter_eq (db : PrefsDB) :
    prefsStoreAfter db =
      match db.find? (fun x => x.1 = "user_preferences") with
      | some _ => db
      | none => prefsPut db defaultPrefs := by
  unfold prefsStoreAfter getPreferences prefsGet
  cases h : db.find? (fun x => x.1 = "user_preferences") <;> simp [h]

/-- C6. Preferences are a self-creating singleton: against a store with no
preferences document, `getPreferences` returns the fully-populated default
document and persists it under the fixed identifier `"user_preferences"`; a
second call returns the identical document without re-creating it (the store
is unchanged); and no call ever introduces an identifier other than
`"user_preferences"` or a second copy of it. -/
theorem preferences_singleton (db : PrefsDB) :
    getPreferences [] =
      .ok (defaultPrefs, [("user_preferences", defaultPrefs)]) ∧
    getPreferences [("user_preferences", defaultPrefs)] =
      .ok (defaultPrefs, [("user_preferences", defaultPrefs)]) ∧
    (∀ i, i ∈ (prefsStoreAfter db).map Prod.fst →
      i ∈ db.map Prod.fst ∨ i = "user_preferences") ∧
    ((db.map Prod.fst).count "user_preferences" ≤ 1 →
      ((prefsStoreAfter db).map Prod.fst).count "user_preferences" ≤ 1) := by
  refine ⟨rfl, rfl, ?_, ?_⟩
  · intro i hi
    rw [prefsStoreAfter_eq] at hi
    cases hf : db.find? (fun x => x.1 = "user_preferences") with
    | some p =>
      rw [hf] at hi
      exact Or.inl hi
    | none =>
      rw [hf] at hi
      rw [prefsPut_keys] at hi
      by_cases hp : db.any (fun e => e.1 = defaultPrefs._id)
      · rw [if_pos hp] at hi
        exact Or.inl hi
      · rw [if_neg hp] at hi
        rcases List.mem_append.mp hi with h | h
        · exact Or.inl h
        · exact Or.inr (List.mem_singleton.mp h)
  · intro hc
    rw [prefsStoreAfter_eq]
    cases hf : db.find? (fun x => x.1 = "user_preferences") with
    | some p => exact hc
    | none =>
      rw [prefsPut_keys]
      by_cases hp : db.any (fun e => e.1 = defaultPrefs._id)
      · rw [if_pos hp]
        exact hc
      · rw [if_neg hp]
        have hnm : "user_preferences" ∉ db.map Prod.fst := by
          intro hm
          rcases List.mem_map.mp hm with ⟨e, he, hee⟩
          exact hp (List.any_eq_true.mpr ⟨e, he, by simp [hee, defaultPrefs]⟩)
        rw [List.count_append]
        rw [List.count_eq_zero.mpr hnm]
        simp [defaultPrefs, List.count_singleton]

/-- Closed witness for C6: the key set after a `getPreferences` call on the
empty store is exactly the fixed identifier, at most once. -/
theorem preferences_singleton_witness :
    ((prefsStoreAfter ([] : PrefsDB)).map Prod.fst).count "user_preferences"
      ≤ 1 :=
  (preferences_singleton []).2.2.2 (by simp)

/-! ## C8 -/

/-- C8 counterexample. Importing under an unrecognized pack name does NOT
propagate an error: `getTypeFromPackName` silently falls back to the default
tag `"feat"`.  `"classfeatures"` is a core pack with no entry in `typeMap`,
so every record imported from the classfeatures partition is tagged `feat` —
a default category tag from a different partition, assigned silently. -/
theorem getTypeFromPackName_fallback_counterexample :
    "classfeatures" ∈ CORE_PACKS ∧
    typeMap.lookup "classfeatures" = none ∧
    getTypeFromPackName "classfeatures" = GameType.feat ∧
    (transformDoc "classfeatures" { name := some "Arcane Bond" }).type =
      GameType.feat := by
  refine ⟨?_, rfl, rfl, rfl⟩
  simp [CORE_PACKS]

/-- C8 (amended). `getTypeFromPackName` never throws: a pack name present
in `typeMap` is mapped to its matching category tag, and any pack name absent
from `typeMap` — including the shipped pack names `classfeatures`,
`bestiary-ability-glossary-srd` and `domains` — is silently assigned the
default tag `feat` rather than raising an error, so records from those
partitions carry a tag from a different partition. -/
theorem getTypeFromPackName_fallback (p : String) (t : GameType) :
    (typeMap.lookup p = some t → getTypeFromPackName p = t) ∧
    (typeMap.lookup p = none → getTypeFromPackName p = GameType.feat) ∧
    (getTypeFromPackName "classfeatures" = GameType.feat ∧
      getTypeFromPackName "bestiary-ability-glossary-srd" = GameType.feat ∧
      getTypeFromPackName "domains" = GameType.feat) := by
  refine ⟨?_, ?_, rfl, rfl, rfl⟩
  · intro h
    unfold getTypeFromPackName
    rw [h]
  · intro h
    unfold getTypeFromPackName
    rw [h]

/-- Closed witness for C8's amended theorem: a mapped pack name gets its
matching tag. -/
theorem getTypeFromPackName_fallback_witness :
    getTypeFromPackName "ancestries" = GameType.ancestry :=
  (getTypeFromPackName_fallback "ancestries" GameType.ancestry).1 rfl

/-! ## C9 -/

/-- C9. Every collection accessor called before `initDatabases()` has
completed (its module variable still null) fails with the "not initialized"
error; the accessor is a pure synchronous check of the module variable
performed before any I/O, and nothing retries it.  At the initial module
state all three handles are unbound. -/
theorem accessors_uninitialized (s : ModuleState) :
    (s.gamedataDB = false → getGameDataDB s = .error (.uninitialized
      "Gamedata database not initialized. Call initDatabases() first.")) ∧
    (s.charactersDB = false → getCharactersDB s = .error (.uninitialized
      "Characters database not initialized. Call initDatabases() first.")) ∧
    (s.preferencesDB = false → getPreferencesDB s = .error (.uninitialized
      "Preferences database not initialized. Call initDatabases() first.")) ∧
    (initialState.gamedataDB = false ∧ initialState.charactersDB = false ∧
      initialState.preferencesDB = false) := by
  refine ⟨?_, ?_, ?_, rfl, rfl, rfl⟩
  · intro h
    simp [getGameDataDB, h]
  · intro h
    simp [getCharactersDB, h]
  · intro h
    simp [getPreferencesDB, h]

/-- Closed witness for C9: the gamedata accessor at the initial module
state. -/
theorem accessors_uninitialized_witness :
    getGameDataDB initialState = .error (.uninitialized
      "Gamedata database not initialized. Call initDatabases() first.") :=
  (accessors_uninitialized initialState).1 rfl

/-! ## C4 -/

/-- The module state right after `initDatabases()` followed by
`startCharactersSync("https://remote-a")`: one live handler, stored in
`charactersSyncHandler`. -/
def syncedState : ModuleState :=
  { initDatabases initialState with
      charactersSyncHandler := some 0
      handlers := [{ endpoint := "https://remote-a", cancelled := false }] }

/-- C4 counterexample. `destroyDatabases` never reads or cancels
`charactersSyncHandler`: called on a state with a live replication handler
(produced by a real `startCharactersSync` call), it destroys the collections
while leaving the handler active and uncancelled — an in-flight sync survives
the reset. -/
theorem destroyDatabases_keeps_handler_counterexample :
    startCharactersSync (initDatabases initialState) "https://remote-a" =
      .ok (syncedState, 0) ∧
    isSyncActive syncedState = true ∧
    isSyncActive (destroyDatabases syncedState) = true ∧
    (destroyDatabases syncedState).handlers.get? 0 =
      some { endpoint := "https://remote-a", cancelled := false } :=
  ⟨rfl, rfl, rfl, rfl⟩

/-- C4 (amended). `destroyDatabases` closes all three handles and destroys
the persisted contents of all three collections, but it does not recreate the
collections (the handles stay unbound, so accessors fail until
`initDatabases()` runs again) and it does not cancel an active replication
handler: `charactersSyncHandler` and the handler log are untouched, so
`isSyncActive` is unchanged. -/
theorem destroyDatabases_spec (s : ModuleState) :
    (destroyDatabases s).gamedataStore = [] ∧
    (destroyDatabases s).charactersStore = [] ∧
    (destroyDatabases s).preferencesStore = [] ∧
    (destroyDatabases s).gamedataDB = false ∧
    (destroyDatabases s).charactersDB = false ∧
    (destroyDatabases s).preferencesDB = false ∧
    getGameDataDB (destroyDatabases s) = .error (.uninitialized
      "Gamedata database not initialized. Call initDatabases() first.") ∧
    (destroyDatabases s).charactersSyncHandler = s.charactersSyncHandler ∧
    (destroyDatabases s).handlers = s.handlers ∧
    isSyncActive (destroyDatabases s) = isSyncActive s :=
  ⟨rfl, rfl, rfl, rfl, rfl, rfl, rfl, rfl, rfl, rfl⟩

/-! ## Sync-manager lemmas -/

theorem cancelAt_length (hs : List Handler) (i : Nat) :
    (cancelAt hs i).length = hs.length := by
  induction hs generalizing i with
  | nil => cases i <;> rfl
  | cons h t ih =>
    cases i with
    | zero => simp [cancelAt]
    | succ n => simp [cancelAt, ih]

theorem cancelAt_getElem? (hs : List Handler) (i j : Nat) :
    (cancelAt hs i)[j]? =
      if j = i then (hs[j]?).map (fun h => { h with cancelled := true })
      else hs[j]? := by
  induction hs generalizing i j with
  | nil => cases i <;> cases j <;> simp [cancelAt]
  | cons h t ih =>
    cases i with
    | zero =>
      cases j with
      | zero => simp [cancelAt]
      | succ m => simp [cancelAt]
    | succ n =>
      cases j with
      | zero => simp [cancelAt]
      | succ m => simp [cancelAt, ih]

theorem cancelAt_append_length (l : List Handler) (x : Handler) :
    cancelAt (l ++ [x]) l.length = l ++ [{ x with cancelled := true }] := by
  induction l with
  | nil => rfl
  | cons h t ih => simp [cancelAt, ih]

theorem all_cancelled_of_ptr_none (s : ModuleState) (hinv : syncInv s)
    (hptr : s.charactersSyncHandler = none) :
    ∀ (j : Nat) (h : Handler), s.handlers[j]? = some h → h.cancelled = true := by
  intro j h hj
  cases hcl : h.cancelled
  · have := hinv.2 j h hj hcl
    rw [hptr] at this
    cases this
  · rfl

theorem all_cancelled_after_cancel (s : ModuleState) (i : Nat)
    (hinv : syncInv s) (hptr : s.charactersSyncHandler = some i) :
    ∀ (j : Nat) (h : Handler), (cancelAt s.handlers i)[j]? = some h → h.cancelled = true := by
  intro j h hj
  rw [cancelAt_getElem?] at hj
  by_cases hji : j = i
  · rw [if_pos hji] at hj
    cases hg : s.handlers[j]? with
    | none => rw [hg] at hj; cases hj
    | some h0 =>
      rw [hg] at hj
      have := Option.some.inj (by simpa using hj)
      rw [← this]
  · rw [if_neg hji] at hj
    cases hcl : h.cancelled
    · have := hinv.2 j h hj hcl
      rw [hptr] at this
      exact absurd (Option.some.inj this).symm hji
    · rfl

theorem syncInv_of_all_cancelled (H : List Handler) (url : String)
    (s2 : ModuleState)
    (hH : ∀ (j : Nat) (h : Handler), H[j]? = some h → h.cancelled = true)
    (hs2h : s2.handlers = H ++ [{ endpoint := url, cancelled := false }])
    (hs2p : s2.charactersSyncHandler = some H.length) :
    syncInv s2 := by
  constructor
  · intro i hi
    rw [hs2p] at hi
    cases Option.some.inj hi
    rw [hs2h, List.length_append]
    simp
  · intro j h hj hc
    rw [hs2h] at hj
    by_cases hjl : j < H.length
    · rw [List.getElem?_append_left hjl] at hj
      rw [hH j h hj] at hc
      cases hc
    · have hge := Nat.le_of_not_lt hjl
      rw [List.getElem?_append_right hge] at hj
      cases hd : j - H.length with
      | zero =>
        have : j = H.length := by omega
        rw [hs2p, this]
      | succ m =>
        rw [hd] at hj
        simp at hj

theorem startCharactersSync_eq_none (s : ModuleState) (url : String)
    (hdb : s.charactersDB = true) (hptr : s.charactersSyncHandler = none) :
    startCharactersSync s url = .ok
      ({ s with
          handlers := s.handlers ++ [{ endpoint := url, cancelled := false }]
          charactersSyncHandler := some s.handlers.length },
        s.handlers.length) := by
  unfold startCharactersSync
  simp [hdb, hptr]

theorem startCharactersSync_eq_some (s : ModuleState) (url : String) (i : Nat)
    (hdb : s.charactersDB = true) (hptr : s.charactersSyncHandler = some i) :
    startCharactersSync s url = .ok
      ({ s with
          handlers := cancelAt s.handlers i ++
            [{ endpoint := url, cancelled := false }]
          charactersSyncHandler := some (cancelAt s.handlers i).length },
        (cancelAt s.handlers i).length) := by
  unfold startCharactersSync
  simp [hdb, hptr]

/-! ## C3 -/

/-- C3. At most one replication handler is ever active:
`startCharactersSync` preserves the module invariant (every handler in the log
that is not cancelled is exactly the stored one); so does
`stopCharactersSync`; `stopCharactersSync` with no active handler is a no-op;
`isSyncActive` reports exactly whether a handler is present; and starting
against endpoint `A` and then endpoint `B` leaves exactly one uncancelled
handler — the one against `B` — with the `A` handler cancelled before the new
one was created. -/
theorem syncHandler_single_active (s : ModuleState) (A B : String)
    (hdb : s.charactersDB = true) (hinv : syncInv s) :
    (∀ url s2 n, startCharactersSync s url = .ok (s2, n) → syncInv s2) ∧
    syncInv (stopCharactersSync s) ∧
    (s.charactersSyncHandler = none → stopCharactersSync s = s) ∧
    (isSyncActive s = true ↔ s.charactersSyncHandler ≠ none) ∧
    (∀ s1 i1 s2 i2,
      startCharactersSync s A = .ok (s1, i1) →
      startCharactersSync s1 B = .ok (s2, i2) →
      s2.charactersSyncHandler = some i2 ∧
      s2.handlers[i2]? = some { endpoint := B, cancelled := false } ∧
      s2.handlers[i1]? = some { endpoint := A, cancelled := true } ∧
      s2.handlers.filter (fun h => h.cancelled = false) =
        [{ endpoint := B, cancelled := false }]) := by
  have hstart : ∀ url s1 i1, startCharactersSync s url = .ok (s1, i1) →
      ∃ H1, (∀ (j : Nat) (h : Handler), H1[j]? = some h → h.cancelled = true) ∧
        s1 = { s with
          handlers := H1 ++ [{ endpoint := url, cancelled := false }]
          charactersSyncHandler := some H1.length } ∧ i1 = H1.length := by
    intro url s1 i1 h1
    cases hptr : s.charactersSyncHandler with
    | none =>
      rw [startCharactersSync_eq_none s url hdb hptr] at h1
      simp only [Except.ok.injEq, Prod.mk.injEq] at h1
      exact ⟨s.handlers, all_cancelled_of_ptr_none s hinv hptr,
        h1.1.symm, h1.2.symm⟩
    | some i =>
      rw [startCharactersSync_eq_some s url i hdb hptr] at h1
      simp only [Except.ok.injEq, Prod.mk.injEq] at h1
      exact ⟨cancelAt s.handlers i, all_cancelled_after_cancel s i hinv hptr,
        h1.1.symm, h1.2.symm⟩
  refine ⟨?_, ?_, ?_, ?_, ?_⟩
  · intro url s2 n h
    obtain ⟨H1, hH1, hs2, _⟩ := hstart url s2 n h
    exact syncInv_of_all_cancelled H1 url s2 hH1 (by rw [hs2]) (by rw [hs2])
  · unfold stopCharactersSync
    cases hptr : s.charactersSyncHandler with
    | none => exact hinv
    | some i =>
      constructor
      · intro k hk
        cases hk
      · intro j h hj hc
        have := all_cancelled_after_cancel s i hinv hptr j h hj
        rw [this] at hc
        cases hc
  · intro hptr
    unfold stopCharactersSync
    rw [hptr]
  · unfold isSyncActive
    cases s.charactersSyncHandler <;> simp
  · intro s1 i1 s2 i2 h1 h2
    obtain ⟨H1, hH1, hs1, hi1⟩ := hstart A s1 i1 h1
    have hdb1 : s1.charactersDB = true := by rw [hs1]; exact hdb
    have hptr1 : s1.charactersSyncHandler = some H1.length := by rw [hs1]
    rw [startCharactersSync_eq_some s1 B H1.length hdb1 hptr1] at h2
    simp only [Except.ok.injEq, Prod.mk.injEq] at h2
    obtain ⟨hs2, hi2⟩ := h2
    have hh1 : s1.handlers = H1 ++ [{ endpoint := A, cancelled := false }] := by
      rw [hs1]
    have hcan : cancelAt s1.handlers H1.length =
        H1 ++ [{ endpoint := A, cancelled := true }] := by
      rw [hh1, cancelAt_append_length]
    have hlen : (cancelAt s1.handlers H1.length).length = H1.length + 1 := by
      rw [hcan]
      simp
    have hh2 : s2.handlers =
        (H1 ++ [{ endpoint := A, cancelled := true }]) ++
          [{ endpoint := B, cancelled := false }] := by
      rw [← hs2, hcan]
    have hlen2 : (H1 ++ [({ endpoint := A, cancelled := true } : Handler)]).length
        = H1.length + 1 := by simp
    have hi2' : i2 = H1.length + 1 := by rw [← hi2, hlen]
    refine ⟨?_, ?_, ?_, ?_⟩
    · rw [← hs2, hlen, ← hi2']
    · rw [hh2, hi2', List.getElem?_append_right (by rw [hlen2]),
        hlen2]
      simp
    · rw [hh2, hi1, List.getElem?_append_left (by rw [hlen2]; omega),
        List.getElem?_append_right (Nat.le_refl _)]
      simp
    · rw [hh2]
      rw [List.filter_append, List.filter_append]
      have hfil : H1.filter (fun h => h.cancelled = false) = [] := by
        rw [List.filter_eq_nil_iff]
        intro h hm
        rcases List.mem_iff_getElem?.mp hm with ⟨j, hj⟩
        rw [hH1 j h hj]
        simp
      rw [hfil]
      rfl

/-- Closed witness for C3: the freshly initialized module state satisfies the
hypotheses, and `isSyncActive` there reports handler presence. -/
theorem syncHandler_single_active_witness :
    isSyncActive (initDatabases initialState) = true ↔
      (initDatabases initialState).charactersSyncHandler ≠ none :=
  (syncHandler_single_active (initDatabases initialState)
    "https://remote-a" "https://remote-b" rfl
    ⟨(fun i hi => by cases hi), (fun j h hj => by cases j <;> cases hj)⟩).2.2.2.1

end Anvil2e
